import Mathlib

/-!
Verification development for the vorverse-next media-downloader core.

The Python sources under `app/` are shallowly embedded:
  * `app/utils/url_parser.py` — URL classification (`detect_platform`,
    `extract_urls`); the regular expressions are translated pattern by
    pattern into executable matchers over lists of characters.
  * `app/main.py` — service discovery/lookup, the per-task download
    state machine (`process_download_task`), delivery packaging
    (`send_files_to_user`), deferred cleanup (`cleanup_user_files`),
    and the semaphore-bounded worker pool.
  * `app/services/db_service.py` — the download-history ledger
    (`update_download_record`).

External effects (Telegram transport calls, the filesystem, the event
loop clock) are modelled explicitly: transport calls consult a success
oracle indexed by call number, the filesystem is a finite list of
(path, size) pairs, and `asyncio.sleep` is the postcondition that the
wake-up time is at least the start time plus the requested delay.
-/

/-! ## URL classifier — `app/utils/url_parser.py` -/

/-- Python `\s` (ASCII fragment): the whitespace characters recognised by
`str.strip()` and the regex class `[^\s]`. -/
def isPySpace (c : Char) : Bool :=
  c = ' ' || c = '\t' || c = '\n' || c = '\r' || c = '\x0b' || c = '\x0c'

/-- Drop an exact literal from the front of the input, or fail. -/
def dropLit : List Char → List Char → Option (List Char)
  | [], s => some s
  | _, [] => none
  | l :: ls, c :: cs => if c = l then dropLit ls cs else none

/-- Continuation-passing literal matcher: `lit` then `k`. -/
def thenLit (lit : List Char) (k : List Char → Bool) (s : List Char) : Bool :=
  match dropLit lit s with
  | some r => k r
  | none => false

/-- Greedy-with-backtracking `c?` then `k`. -/
def optChar (c : Char) (k : List Char → Bool) (s : List Char) : Bool :=
  (match s with
   | c2 :: r => if c2 = c then k r else false
   | [] => false) || k s

/-- Greedy-with-backtracking one-or-more of a character class, then `k`:
the translation of a regex `X+` followed by the rest of the pattern. -/
def plusThen (p : Char → Bool) (k : List Char → Bool) : List Char → Bool
  | [] => false
  | c :: cs => p c && (k cs || plusThen p k cs)

/-- The pattern tail once a capture group closes the pattern: under
`re.match` a trailing group only has to match some prefix, so the rest of
the input is unconstrained. -/
def restAny : List Char → Bool := fun _ => true

/-- `(?:https?://)?` then `k`. -/
def optScheme (k : List Char → Bool) (s : List Char) : Bool :=
  thenLit ("http").data (optChar 's' (thenLit ("://").data k)) s || k s

/-- `(?:www\.)?` then `k`. -/
def optWww (k : List Char → Bool) (s : List Char) : Bool :=
  thenLit ("www.").data k s || k s

/-- Regex class `[A-Za-z0-9]`. -/
def isAlnumCls (c : Char) : Bool := c.isAlpha || c.isDigit

/-- Regex class `[A-Za-z0-9_-]`. -/
def isSlugCls (c : Char) : Bool := c.isAlpha || c.isDigit || c = '_' || c = '-'

/-- Pattern `(?:https?://)?(?:www\.)?tiktok\.com/@([^/]+)/video/(\d+)`. -/
def tiktokPat1 : List Char → Bool :=
  optScheme (optWww (thenLit ("tiktok.com/@").data
    (plusThen (fun c => c ≠ '/') (thenLit ("/video/").data
      (plusThen Char.isDigit restAny)))))

/-- Pattern `(?:https?://)?(?:vm\.tiktok\.com|vt\.tiktok\.com)/([A-Za-z0-9]+)`. -/
def tiktokPat2 : List Char → Bool :=
  optScheme (fun s =>
    (thenLit ("vm.tiktok.com").data (thenLit ("/").data (plusThen isAlnumCls restAny)) s) ||
    (thenLit ("vt.tiktok.com").data (thenLit ("/").data (plusThen isAlnumCls restAny)) s))

/-- Pattern `(?:https?://)?(?:www\.)?tiktok\.com/t/([A-Za-z0-9]+)`. -/
def tiktokPat3 : List Char → Bool :=
  optScheme (optWww (thenLit ("tiktok.com/t/").data (plusThen isAlnumCls restAny)))

/-- Pattern `(?:https?://)?(?:www\.)?douyin\.com/video/(\d+)`. -/
def douyinPat1 : List Char → Bool :=
  optScheme (optWww (thenLit ("douyin.com/video/").data (plusThen Char.isDigit restAny)))

/-- Pattern `(?:https?://)?v\.douyin\.com/([A-Za-z0-9]+)`. -/
def douyinPat2 : List Char → Bool :=
  optScheme (thenLit ("v.douyin.com/").data (plusThen isAlnumCls restAny))

/-- Pattern `(?:https?://)?(?:www\.)?instagram\.com/p/([A-Za-z0-9_-]+)`. -/
def instagramPat1 : List Char → Bool :=
  optScheme (optWww (thenLit ("instagram.com/p/").data (plusThen isSlugCls restAny)))

/-- Pattern `(?:https?://)?(?:www\.)?instagram\.com/reel/([A-Za-z0-9_-]+)`. -/
def instagramPat2 : List Char → Bool :=
  optScheme (optWww (thenLit ("instagram.com/reel/").data (plusThen isSlugCls restAny)))

/-- Pattern `(?:https?://)?(?:www\.)?instagram\.com/tv/([A-Za-z0-9_-]+)`. -/
def instagramPat3 : List Char → Bool :=
  optScheme (optWww (thenLit ("instagram.com/tv/").data (plusThen isSlugCls restAny)))

/-- Pattern `(?:https?://)?(?:www\.)?youtube\.com/watch\?v=([A-Za-z0-9_-]+)`. -/
def youtubePat1 : List Char → Bool :=
  optScheme (optWww (thenLit ("youtube.com/watch?v=").data (plusThen isSlugCls restAny)))

/-- Pattern `(?:https?://)?youtu\.be/([A-Za-z0-9_-]+)`. -/
def youtubePat2 : List Char → Bool :=
  optScheme (thenLit ("youtu.be/").data (plusThen isSlugCls restAny))

/-- Pattern `(?:https?://)?(?:www\.)?youtube\.com/shorts/([A-Za-z0-9_-]+)`. -/
def youtubePat3 : List Char → Bool :=
  optScheme (optWww (thenLit ("youtube.com/shorts/").data (plusThen isSlugCls restAny)))

/-- Pattern `(?:https?://)?(?:www\.)?twitter\.com/[^/]+/status/(\d+)`. -/
def twitterPat1 : List Char → Bool :=
  optScheme (optWww (thenLit ("twitter.com/").data
    (plusThen (fun c => c ≠ '/') (thenLit ("/status/").data
      (plusThen Char.isDigit restAny)))))

/-- Pattern `(?:https?://)?(?:www\.)?x\.com/[^/]+/status/(\d+)`. -/
def twitterPat2 : List Char → Bool :=
  optScheme (optWww (thenLit ("x.com/").data
    (plusThen (fun c => c ≠ '/') (thenLit ("/status/").data
      (plusThen Char.isDigit restAny)))))

/-- Pattern `(?:https?://)?(?:www\.)?facebook\.com/.+/videos/(\d+)`; `.` is any
character except a newline. -/
def facebookPat1 : List Char → Bool :=
  optScheme (optWww (thenLit ("facebook.com/").data
    (plusThen (fun c => c ≠ '\n') (thenLit ("/videos/").data
      (plusThen Char.isDigit restAny)))))

/-- Pattern `(?:https?://)?(?:www\.)?fb\.watch/([A-Za-z0-9_-]+)`. -/
def facebookPat2 : List Char → Bool :=
  optScheme (optWww (thenLit ("fb.watch/").data (plusThen isSlugCls restAny)))

/-- The `PATTERNS` table of `URLParser`, in its (insertion-ordered) dict
order: each platform is paired with its pattern list. -/
def urlPatterns : List (String × List (List Char → Bool)) :=
  [("tiktok", [tiktokPat1, tiktokPat2, tiktokPat3]),
   ("douyin", [douyinPat1, douyinPat2]),
   ("instagram", [instagramPat1, instagramPat2, instagramPat3]),
   ("youtube", [youtubePat1, youtubePat2, youtubePat3]),
   ("twitter", [twitterPat1, twitterPat2]),
   ("facebook", [facebookPat1, facebookPat2])]

/-- Python `str.strip()` on a character list (ASCII whitespace). -/
def pyStrip (s : List Char) : List Char :=
  ((s.dropWhile isPySpace).reverse.dropWhile isPySpace).reverse

/-- `URLParser.detect_platform`: strip the url, then try each platform's
patterns in table order with `re.match` + `re.IGNORECASE`; the first
platform with a matching pattern wins.  Case-insensitivity is embedded by
lowercasing the input and writing the pattern literals in lowercase. -/
def detect_platform (url : String) : Option String :=
  let u := (pyStrip url.data).map Char.toLower
  (urlPatterns.find? (fun pl => pl.2.any (fun pat => pat u))).map (fun pl => pl.1)

/-- The greedy `[^\s]+` tail of the scan pattern: at least one
non-whitespace character, appended to the already-matched scheme `pre`,
together with the input left after the match. -/
def urlBody (pre : List Char) (r : List Char) : Option (List Char × List Char) :=
  if (r.takeWhile (fun c => ¬ isPySpace c)).isEmpty then none
  else some (pre ++ r.takeWhile (fun c => ¬ isPySpace c),
             r.dropWhile (fun c => ¬ isPySpace c))

/-- One attempt of the `extract_urls` scan pattern `https?://[^\s]+` at the
current position: on success returns the matched token and the rest of the
input after the (greedy, maximal) match. -/
def urlTokenAt (s : List Char) : Option (List Char × List Char) :=
  match dropLit ("http").data s with
  | none => none
  | some r1 =>
    match dropLit ("s://").data r1 with
    | some r2 => urlBody ("https://").data r2
    | none =>
      match dropLit ("://").data r1 with
      | some r2 => urlBody ("http://").data r2
      | none => none

theorem dropLit_length {lit s r : List Char} (h : dropLit lit s = some r) :
    r.length + lit.length = s.length := by
  induction lit generalizing s with
  | nil => simp [dropLit] at h; simp [h]
  | cons l ls ih =>
    cases s with
    | nil => simp [dropLit] at h
    | cons c cs =>
      simp only [dropLit] at h
      split at h
      · have := ih h
        simp [List.length_cons]
        omega
      · exact absurd h (by simp)

theorem dropWhile_length_le (p : Char → Bool) (l : List Char) :
    (l.dropWhile p).length ≤ l.length := by
  induction l with
  | nil => simp [List.dropWhile]
  | cons c cs ih =>
    by_cases hp : p c
    · simp only [List.dropWhile_cons, hp, if_true]
      exact Nat.le_trans ih (by simp)
    · simp [List.dropWhile_cons, hp]

theorem dropWhile_length_lt {p : Char → Bool} {l : List Char}
    (h : ¬ (l.takeWhile p).isEmpty) : (l.dropWhile p).length < l.length := by
  induction l with
  | nil => simp [List.takeWhile] at h
  | cons c cs ih =>
    by_cases hp : p c
    · simp only [List.dropWhile_cons, hp, if_true]
      calc (cs.dropWhile p).length ≤ cs.length := dropWhile_length_le p cs
        _ < (c :: cs).length := by simp
    · simp [List.takeWhile_cons, hp] at h

theorem urlBody_rest_lt {pre r tok rest : List Char}
    (h : urlBody pre r = some (tok, rest)) : rest.length < r.length := by
  unfold urlBody at h
  split at h
  · exact absurd h (by simp)
  next hne =>
    simp only [Option.some.injEq, Prod.mk.injEq] at h
    have hlt := dropWhile_length_lt (p := fun c => ¬ isPySpace c) (l := r) hne
    rw [← h.2]
    exact hlt

theorem urlTokenAt_rest_lt {s tok rest : List Char}
    (h : urlTokenAt s = some (tok, rest)) : rest.length < s.length := by
  unfold urlTokenAt at h
  split at h
  · exact absurd h (by simp)
  next r1 h1 =>
    have hr1 := dropLit_length h1
    split at h
    next r2 h2 =>
      have hr2 := dropLit_length h2
      have := urlBody_rest_lt h
      omega
    next h2 =>
      split at h
      next r2 h3 =>
        have hr2 := dropLit_length h3
        have := urlBody_rest_lt h
        omega
      · exact absurd h (by simp)

/-- The scan loop of `re.findall` for the pattern `https?://[^\s]+`: try a
match at each position; on a match, emit it and continue after its end
(non-overlapping); otherwise advance one character.  Structured with an
explicit fuel so the recursion is structural; every step consumes at least
one character (`urlTokenAt_rest_lt`), so fuel equal to the input length is
exact. -/
def findUrlsFuel : Nat → List Char → List (List Char)
  | 0, _ => []
  | fuel + 1, s =>
    match urlTokenAt s with
    | some tr => tr.1 :: findUrlsFuel fuel tr.2
    | none =>
      match s with
      | [] => []
      | _ :: cs => findUrlsFuel fuel cs

/-- Fuel equal to the remaining input length never runs out: the scan with
that fuel agrees with the scan at any larger fuel. -/
theorem findUrlsFuel_adequate (fuel fuel2 : Nat) (s : List Char)
    (h1 : s.length ≤ fuel) (h2 : s.length ≤ fuel2) :
    findUrlsFuel fuel s = findUrlsFuel fuel2 s := by
  induction fuel generalizing fuel2 s with
  | zero =>
    have : s = [] := List.length_eq_zero.mp (Nat.le_zero.mp h1)
    subst this
    cases fuel2 with
    | zero => rfl
    | succ m => simp [findUrlsFuel, urlTokenAt, dropLit]
  | succ m ih =>
    cases s with
    | nil =>
      cases fuel2 with
      | zero => rfl
      | succ m2 => simp [findUrlsFuel, urlTokenAt, dropLit]
    | cons c cs =>
      cases fuel2 with
      | zero => simp at h2
      | succ m2 =>
        cases htok : urlTokenAt (c :: cs) with
        | some tr =>
          obtain ⟨tok1, rest1⟩ := tr
          have hlt := urlTokenAt_rest_lt htok
          simp only [List.length_cons] at h1 h2 hlt
          simp only [findUrlsFuel, htok]
          rw [ih m2 rest1 (by omega) (by omega)]
        | none =>
          simp only [List.length_cons] at h1 h2
          simp only [findUrlsFuel, htok]
          exact ih m2 cs (by omega) (by omega)

/-- The whole-input scan: fuel is the input length. -/
def findUrlsAux (s : List Char) : List (List Char) :=
  findUrlsFuel s.length s

/-- The `re.findall(url_pattern, text)` step of `URLParser.extract_urls`. -/
def findUrls (text : String) : List String :=
  (findUrlsAux text.data).map (fun cs => String.mk cs)

/-- The accumulation loop of `URLParser.extract_urls`: classify each found
url and keep only those with a detected platform. -/
def extractLoop : List String → List (String × String)
  | [] => []
  | u :: rest =>
    match detect_platform u with
    | some p => (u, p) :: extractLoop rest
    | none => extractLoop rest

/-- `URLParser.extract_urls`: find all `https?://[^\s]+` tokens in the text,
then classify each and silently drop the unclassified ones. -/
def extract_urls (text : String) : List (String × String) :=
  extractLoop (findUrls text)

/-! ## Platform registry — `MediaDownloaderBot._discover_services` /
`get_service_for_url` in `app/main.py` -/

/-- Python dict assignment `d[k] = v` on an association list. -/
def dictSet (d : List (String × Nat)) (k : String) (v : Nat) : List (String × Nat) :=
  match d with
  | [] => [(k, v)]
  | (k2, v2) :: rest => if k2 = k then (k, v) :: rest else (k2, v2) :: dictSet rest k v

/-- Python `d.get(k)` on an association list. -/
def dictGet (d : List (String × Nat)) (k : String) : Option Nat :=
  (d.find? (fun e => e.1 = k)).map (fun e => e.2)

/-- The registration step of `_discover_services` for one provider: the
provider registers under its own service name; a `tiktok` provider is also
registered under the alias `douyin`; a `ytdlp` provider is additionally
registered under every still-unclaimed platform of
`["youtube", "twitter", "facebook", "generic"]`. -/
def registerService (services : List (String × Nat)) (name : String) (inst : Nat) :
    List (String × Nat) :=
  let s1 := dictSet services name inst
  if name = "tiktok" then dictSet s1 ("douyin") inst
  else if name = "ytdlp" then
    (["youtube", "twitter", "facebook", "generic"]).foldl
      (fun acc p => if dictGet acc p = none then dictSet acc p inst else acc) s1
  else s1

/-- Discovery loop of `_discover_services` over the providers found in
`app/services/`, in discovery order; provider number `i` yields a fresh
service instance identified by `i`. -/
def discoverAux : List String → Nat → List (String × Nat) → List (String × Nat)
  | [], _, acc => acc
  | n :: rest, i, acc => discoverAux rest (i + 1) (registerService acc n i)

/-- `MediaDownloaderBot._discover_services`, starting from the empty
services dict. -/
def discover_services (providers : List String) : List (String × Nat) :=
  discoverAux providers 0 []

/-- The resolution step of `get_service_for_url` once the platform has been
classified: exact platform key first, then the `generic` entry; an
unclassified url goes straight to the `generic` entry. -/
def lookupService (services : List (String × Nat)) (platform : Option String) : Option Nat :=
  match platform with
  | none => dictGet services ("generic")
  | some p =>
    match dictGet services p with
    | some s => some s
    | none => dictGet services ("generic")

/-- `MediaDownloaderBot.get_service_for_url`: classify the url, then
resolve it against the discovered services. -/
def get_service_for_url (services : List (String × Nat)) (url : String) : Option Nat :=
  lookupService services (detect_platform url)

/-! ## Ledger — `DatabaseService` in `app/services/db_service.py` -/

/-- A row of the `download_history` table. -/
structure DownloadRecord where
  id : Nat
  user_id : Nat
  url : String
  platform : String
  status : String
  file_path : Option String
  file_size : Option Nat
  created_at : Nat
  completed_at : Option Nat
  error_message : Option String
deriving Repr, DecidableEq

/-- Python truthiness of an optional string: `None` and `""` are falsy. -/
def pyTruthyStr (o : Option String) : Bool :=
  match o with
  | none => false
  | some s => s ≠ ""

/-- Python truthiness of an optional number: `None` and `0` are falsy. -/
def pyTruthyNat (o : Option Nat) : Bool :=
  match o with
  | none => false
  | some n => n ≠ 0

/-- The field updates `update_download_record` applies to the matched row:
`status` unconditionally; `file_path`, `file_size` and `error_message` only
when the passed argument is truthy; `completed_at` when the new status is
`"completed"`. -/
def applyRecordUpdate (r : DownloadRecord) (status : String) (file_path : Option String)
    (file_size : Option Nat) (error_message : Option String) (now : Nat) : DownloadRecord :=
  let r1 := { r with status := status }
  let r2 := if pyTruthyStr file_path then { r1 with file_path := file_path } else r1
  let r3 := if pyTruthyNat file_size then { r2 with file_size := file_size } else r2
  let r4 := if pyTruthyStr error_message then { r3 with error_message := error_message } else r3
  if status = "completed" then { r4 with completed_at := some now } else r4

/-- `DatabaseService.update_download_record`: look up the first row whose
primary key equals `record_id`; if none exists, do nothing; otherwise apply
the field updates and commit. -/
def update_download_record (db : List DownloadRecord) (record_id : Nat) (status : String)
    (file_path : Option String) (file_size : Option Nat) (error_message : Option String)
    (now : Nat) : List DownloadRecord :=
  match db with
  | [] => []
  | r :: rest =>
    if r.id = record_id then applyRecordUpdate r status file_path file_size error_message now :: rest
    else r :: update_download_record rest record_id status file_path file_size error_message now

/-- First row with the given primary key (the `query ... .first()` idiom). -/
def findRecord (db : List DownloadRecord) (record_id : Nat) : Option DownloadRecord :=
  db.find? (fun r => r.id = record_id)

/-! ## Filesystem model and delivery packager —
`MediaDownloaderBot.send_files_to_user` in `app/main.py` -/

/-- The on-disk state: the extant files as (path, byte size) pairs. -/
def FsState : Type := List (String × Nat)

/-- `Path(p).exists()`. -/
def fileExists (fs : FsState) (p : String) : Bool :=
  ((fs : List (String × Nat)).find? (fun e => e.1 = p)).isSome

/-- `Path(p).stat().st_size` for an extant file (0 when absent; the code
only calls it under an existence guard). -/
def fileSize (fs : FsState) (p : String) : Nat :=
  ((((fs : List (String × Nat)).find? (fun e => e.1 = p)).map (fun e => e.2)).getD 0)

/-- `sum(Path(f).stat().st_size for f in files if Path(f).exists())`. -/
def totalSize (fs : FsState) (files : List String) : Nat :=
  ((files.filter (fileExists fs)).map (fileSize fs)).sum

/-- Split a character list at every occurrence of `sep` (the pieces keep
no separator; adjacent separators give empty pieces). -/
def splitOnChar (sep : Char) : List Char → List (List Char)
  | [] => [[]]
  | c :: cs =>
    let r := splitOnChar sep cs
    if c = sep then [] :: r
    else
      match r with
      | [] => [[c]]
      | h :: t => (c :: h) :: t

/-- `Path(p).name`: the final path component (purely textual; `.` segments
and empty segments are not components). -/
def pathName (p : String) : String :=
  ((((splitOnChar '/' p.data).map (fun cs => String.mk cs)).filter
    (fun c => c ≠ "" && c ≠ ".")).getLastD (""))

/-- The archive built by the multi-file branch of `send_files_to_user`:
one top-level entry per produced file that still exists, named by
`Path(file_path).name`, written in list order.  `zipfile` keeps colliding
entry names as distinct duplicate entries. -/
def archiveEntries (fs : FsState) (files : List String) : List String :=
  (files.filter (fileExists fs)).map pathName

/-- Observable external actions of the delivery step. -/
inductive Ev where
  | msgSent (chat : Int) (text : String)
  | docSent (chat : Int) (path : String) (caption : String)
  | videoSent (chat : Int) (path : String) (caption : String)
  | photoSent (chat : Int) (path : String) (caption : String)
  | zipWritten (path : String) (entries : List String)
  | unlinked (path : String)
deriving Repr, DecidableEq

/-- Python `a or b` on an optional string against a default: the left value
wins only when truthy. -/
def pyOrStr (a : Option String) (d : String) : String :=
  if pyTruthyStr a then a.getD ("") else d

/-- `metadata.get(key)` for a string-valued metadata dict. -/
def metaGet (m : List (String × String)) (k : String) : Option String :=
  ((m.find? (fun e => e.1 = k)).map (fun e => e.2))

/-- `metadata.get(key, default)`. -/
def metaGetD (m : List (String × String)) (k : String) (d : String) : String :=
  (metaGet m k).getD d

/-- The caption `f"✅ {metadata.get('title') or metadata.get('caption') or 'Media Downloaded'}"`. -/
def singleCaption (metadata : List (String × String)) : String :=
  "✅ " ++ pyOrStr (metaGet metadata ("title"))
    (pyOrStr (metaGet metadata ("caption")) ("Media Downloaded"))

/-- The caption of the archive document:
`f"✅ Downloaded: {metadata.get('title', 'Media files')} ({len(files)} files)"`. -/
def zipCaption (metadata : List (String × String)) (n : Nat) : String :=
  "✅ Downloaded: " ++ metaGetD metadata ("title") ("Media files") ++
    " (" ++ toString n ++ " files)"

/-- `f.lower().endswith(ext) for ext in ['.mp4', '.avi', '.mov', '.mkv']`. -/
def isVideoName (p : String) : Bool :=
  ([".mp4", ".avi", ".mov", ".mkv"]).any (fun e => String.endsWith (String.toLower p) e)

/-- `f.lower().endswith(ext) for ext in ['.jpg', '.jpeg', '.png', '.gif', '.webp']`. -/
def isPhotoName (p : String) : Bool :=
  ([".jpg", ".jpeg", ".png", ".gif", ".webp"]).any (fun e => String.endsWith (String.toLower p) e)

/-- The `try:` body of `send_files_to_user`.  `oracle k` tells whether the
`k`-th transport call of the run succeeds; a `some` third component is an
exception raised by a transport call, to be caught by the function's own
`except` clause.  Events record what externally happened before any raise:
in the multi-file branch the temporary archive `tmpName` is written first,
and it is unlinked only after `send_document` returns — the raising path
emits no `unlinked` event. -/
def sendFilesBody (oracle : Nat → Bool) (k : Nat) (fs : FsState) (chat_id : Int)
    (files : List String) (metadata : List (String × String)) (tmpName : String) :
    List Ev × Nat × Option String :=
  match files with
  | [] =>
    if oracle k then ([Ev.msgSent chat_id ("❌ No files were downloaded.")], k + 1, none)
    else ([], k + 1, some ("send_message failed"))
  | f :: rest =>
    if (f :: rest).length > 1 then
      let entries := archiveEntries fs (f :: rest)
      if oracle k then
        ([Ev.zipWritten tmpName entries,
          Ev.docSent chat_id tmpName (zipCaption metadata (f :: rest).length),
          Ev.unlinked tmpName], k + 1, none)
      else ([Ev.zipWritten tmpName entries], k + 1, some ("send_document failed"))
    else
      if fileExists fs f then
        if isVideoName f then
          if oracle k then ([Ev.videoSent chat_id f (singleCaption metadata)], k + 1, none)
          else ([], k + 1, some ("send_video failed"))
        else if isPhotoName f then
          if oracle k then ([Ev.photoSent chat_id f (singleCaption metadata)], k + 1, none)
          else ([], k + 1, some ("send_photo failed"))
        else
          if oracle k then ([Ev.docSent chat_id f (singleCaption metadata)], k + 1, none)
          else ([], k + 1, some ("send_document failed"))
      else ([], k, none)

/-- `MediaDownloaderBot.send_files_to_user`: run the `try:` body; on an
exception, log it and send an error message to the chat — that final
`send_message` is itself unguarded, so its own failure escapes the
function (the returned `some` exception). -/
def send_files_to_user (oracle : Nat → Bool) (k : Nat) (fs : FsState) (chat_id : Int)
    (files : List String) (metadata : List (String × String)) (tmpName : String) :
    List Ev × Nat × Option String :=
  match sendFilesBody oracle k fs chat_id files metadata tmpName with
  | (evs, k1, none) => (evs, k1, none)
  | (evs, k1, some e) =>
    if oracle k1 then
      (evs ++ [Ev.msgSent chat_id ("❌ Error sending files: " ++ e)], k1 + 1, none)
    else (evs, k1 + 1, some ("send_message failed"))

/-! ## Download job — `MediaDownloaderBot.process_download_task` -/

/-- The dict returned by `service.download(url, output_dir)`. -/
structure FetchResult where
  success : Bool
  files : List String
  metadata : List (String × String)
  error : Option String
deriving Repr, DecidableEq

/-- `Path(config.DOWNLOAD_PATH) / str(user_id) / str(record_id)` — the
per-task isolated output directory. -/
def taskDirPath (root : String) (user_id record_id : Nat) : String :=
  root ++ "/" ++ toString user_id ++ "/" ++ toString record_id

/-- One run of `process_download_task` after the semaphore slot is held.
Inputs: the transport oracle and starting call counter, the filesystem, the
ledger, the discovered services, the task fields, and the fetch outcome
(already produced by `service.download`; a fetcher exception is folded into
a failure result upstream).  Output: the ledger after the run, the emitted
transport events, and the cleanup-scheduled flag (the `finally:` clause,
always reached).  Control flow mirrors the source: on fetch success the
record is first set to `completed`; only if `send_files_to_user` raises out
of its own handler does the outer `except` re-mark the record `failed` and
attempt a guarded notification. -/
def process_download_task (oracle : Nat → Bool) (k : Nat) (fs : FsState)
    (db : List DownloadRecord) (services : List (String × Nat)) (chat_id : Int)
    (user_id record_id : Nat) (url platform root tmpName : String)
    (result : FetchResult) (now : Nat) : List DownloadRecord × List Ev × Bool :=
  match get_service_for_url services url with
  | none =>
    let msg := "No service available for platform: " ++ platform
    let db1 := update_download_record db record_id ("failed") none none (some msg) now
    if oracle k then
      (db1, [Ev.msgSent chat_id ("❌ Download failed for " ++ url ++ "\nError: " ++ msg)], true)
    else (db1, [], true)
  | some _ =>
    if result.success then
      let total := totalSize fs result.files
      let outDir := taskDirPath root user_id record_id
      let db1 := update_download_record db record_id ("completed") (some outDir) (some total) none now
      match send_files_to_user oracle k fs chat_id result.files result.metadata tmpName with
      | (evs, _, none) => (db1, evs, true)
      | (evs, k1, some e) =>
        let db2 := update_download_record db1 record_id ("failed") none none (some e) now
        if oracle k1 then
          (db2, evs ++ [Ev.msgSent chat_id ("❌ Download failed for " ++ url ++ "\nError: " ++ e)], true)
        else (db2, evs, true)
    else
      let emsg := (result.error).getD ("Unknown error")
      let db1 := update_download_record db record_id ("failed") none none (some emsg) now
      if oracle k then
        (db1, [Ev.msgSent chat_id ("❌ Download failed for " ++ url ++ "\nError: " ++ emsg)], true)
      else
        let db2 := update_download_record db1 record_id ("failed") none none
          (some ("send_message failed")) now
        if oracle (k + 1) then
          (db2, [Ev.msgSent chat_id ("❌ Download failed for " ++ url ++ "\nError: " ++ "send_message failed")], true)
        else (db2, [], true)

/-! ## Cleanup scheduler — `MediaDownloaderBot.cleanup_user_files` -/

/-- Does the character list `s` begin with `pre`? (structural, so kernel
reduction can evaluate it). -/
def leadsWith : List Char → List Char → Bool
  | [], _ => true
  | _, [] => false
  | p :: ps, c :: cs => p = c && leadsWith ps cs

/-- Paths removed by `shutil.rmtree(dir)`: the directory itself and
everything beneath it. -/
def underDir (dir p : String) : Bool :=
  p = dir || leadsWith (dir ++ "/").data p.data

/-- The delay passed to `asyncio.sleep`: `delay_hours * 3600` seconds. -/
def cleanupDelaySeconds (delay_hours : Nat) : Nat := delay_hours * 3600

/-- The `asyncio.sleep` contract: a sleep of `d` seconds started at `t0`
returns at some instant `t` no earlier than `t0 + d`. -/
def sleepElapsed (t0 d t : Nat) : Prop := t0 + d ≤ t

/-- The deletion step of `cleanup_user_files` once the timer has fired:
if the task directory still exists, remove it and everything beneath it;
a missing directory leaves the filesystem untouched (and raises nothing —
the `if user_dir.exists()` guard). -/
def cleanup_user_files (fs : List String) (root : String) (user_id record_id : Nat) :
    List String :=
  let dir := taskDirPath root user_id record_id
  if dir ∈ fs then fs.filter (fun p => ¬ underDir dir p) else fs

/-! ## Worker pool — `queue_worker` / `download_semaphore` in `app/main.py` -/

/-- Progress of one spawned `process_download_task` through the semaphore
protocol: 0 = created, awaiting `download_semaphore.acquire`; 1 = slot
held, before `service.download`; 2 = `service.download` in flight; 3 =
`service.download` returned, slot still held; 4 = slot released. -/
def holdsSlot (p : Nat) : Bool := decide (1 ≤ p) && decide (p ≤ 3)

/-- The worker-pool state: free semaphore slots plus each spawned task's
progress, indexed in queue (submission) order. -/
structure PoolState where
  avail : Nat
  pcs : List Nat
deriving Repr, DecidableEq

/-- Interleaved execution steps of the spawned tasks.  `acquire` embeds
`asyncio.Semaphore.acquire` under the `async with` at the head of
`process_download_task`: it needs a free slot, and — because `queue_worker`
dequeues FIFO, spawns each task immediately, and `asyncio.Semaphore` wakes
waiters in arrival order — task `i` can be admitted only after every
earlier-submitted task has been admitted.  The remaining steps are the
start and return of the awaited `service.download` call and the slot
release when the `async with` block exits. -/
inductive PoolStep : PoolState → PoolState → Prop where
  | acquire (s : PoolState) (i : Nat) (hi : i < s.pcs.length)
      (hpc : s.pcs.getD i 0 = 0) (hav : 0 < s.avail)
      (hfifo : ∀ j, j < i → 1 ≤ s.pcs.getD j 0) :
      PoolStep s ⟨s.avail - 1, s.pcs.set i 1⟩
  | fetchStart (s : PoolState) (i : Nat) (hi : i < s.pcs.length)
      (hpc : s.pcs.getD i 0 = 1) :
      PoolStep s ⟨s.avail, s.pcs.set i 2⟩
  | fetchEnd (s : PoolState) (i : Nat) (hi : i < s.pcs.length)
      (hpc : s.pcs.getD i 0 = 2) :
      PoolStep s ⟨s.avail, s.pcs.set i 3⟩
  | release (s : PoolState) (i : Nat) (hi : i < s.pcs.length)
      (hpc : s.pcs.getD i 0 = 3) :
      PoolStep s ⟨s.avail + 1, s.pcs.set i 4⟩

/-- Initial pool state: `asyncio.Semaphore(bound)` full, `n` tasks spawned
and all awaiting admission. -/
def initPool (n bound : Nat) : PoolState := ⟨bound, List.replicate n 0⟩

/-- States an execution of the worker pool can reach. -/
def PoolReachable (n bound : Nat) (s : PoolState) : Prop :=
  Relation.ReflTransGen PoolStep (initPool n bound) s

/-- The worker-pool invariant: held slots plus free slots equal the
configured bound, progress values stay in range, and admission is
FIFO-monotone over the submission order. -/
def PoolInv (n bound : Nat) (s : PoolState) : Prop :=
  s.pcs.length = n ∧
  s.avail + s.pcs.countP holdsSlot = bound ∧
  (∀ p ∈ s.pcs, p ≤ 4) ∧
  (∀ i j, i < j → 1 ≤ s.pcs.getD j 0 → 1 ≤ s.pcs.getD i 0)

theorem getD_set_self (l : List Nat) (i a : Nat) (hi : i < l.length) :
    (l.set i a).getD i 0 = a := by
  induction l generalizing i with
  | nil => simp at hi
  | cons c cs ih =>
    cases i with
    | zero => simp [List.set]
    | succ j =>
      simp only [List.set, List.getD_cons_succ]
      exact ih j (by simpa using hi)

theorem getD_set_ne (l : List Nat) {i j : Nat} (a : Nat) (h : j ≠ i) :
    (l.set i a).getD j 0 = l.getD j 0 := by
  induction l generalizing i j with
  | nil => simp [List.set]
  | cons c cs ih =>
    cases i with
    | zero =>
      cases j with
      | zero => exact absurd rfl h
      | succ j2 => simp [List.set]
    | succ i2 =>
      cases j with
      | zero => simp [List.set]
      | succ j2 =>
        simp only [List.set, List.getD_cons_succ]
        exact ih (fun he => h (congrArg Nat.succ he))

theorem countP_set_balance (f : Nat → Bool) (l : List Nat) (i a : Nat) (hi : i < l.length) :
    (l.set i a).countP f + (if f (l.getD i 0) then 1 else 0)
      = l.countP f + (if f a then 1 else 0) := by
  induction l generalizing i with
  | nil => simp at hi
  | cons c cs ih =>
    cases i with
    | zero =>
      simp only [List.set, List.getD_cons_zero, List.countP_cons]
      split_ifs <;> omega
    | succ j =>
      simp only [List.set, List.getD_cons_succ, List.countP_cons]
      have := ih j (by simpa using hi)
      split_ifs at this ⊢ <;> omega

theorem countP_le_of_imp (f g : Nat → Bool) (l : List Nat)
    (h : ∀ a, f a = true → g a = true) : l.countP f ≤ l.countP g := by
  induction l with
  | nil => simp
  | cons c cs ih =>
    simp only [List.countP_cons]
    by_cases hf : f c = true
    · have := h c hf
      simp [hf, this]
      omega
    · simp only [Bool.not_eq_true] at hf
      simp [hf]
      split_ifs <;> omega

theorem getD_replicate_zero (n j : Nat) : (List.replicate n 0).getD j 0 = 0 := by
  induction n generalizing j with
  | zero => simp [List.replicate]
  | succ m ih =>
    cases j with
    | zero => simp [List.replicate]
    | succ j2 => simp only [List.replicate, List.getD_cons_succ]; exact ih j2

theorem fifo_preserved {pcs : List Nat} {i v : Nat} (hv : 1 ≤ v) (hi : i < pcs.length)
    (hold : ∀ i2 j2, i2 < j2 → 1 ≤ pcs.getD j2 0 → 1 ≤ pcs.getD i2 0)
    (hbase : ∀ j, j < i → 1 ≤ pcs.getD j 0) :
    ∀ i2 j2, i2 < j2 → 1 ≤ (pcs.set i v).getD j2 0 → 1 ≤ (pcs.set i v).getD i2 0 := by
  intro i2 j2 hij hj2
  by_cases hi2 : i2 = i
  · rw [hi2, getD_set_self pcs i v hi]
    exact hv
  · rw [getD_set_ne pcs v hi2]
    by_cases hj2i : j2 = i
    · exact hbase i2 (by rw [hj2i] at hij; exact hij)
    · rw [getD_set_ne pcs v hj2i] at hj2
      exact hold i2 j2 hij hj2

theorem poolInv_step {n bound : Nat} {s s2 : PoolState} (hstep : PoolStep s s2)
    (hinv : PoolInv n bound s) : PoolInv n bound s2 := by
  obtain ⟨hlen, hcount, hle, hfifo⟩ := hinv
  cases hstep with
  | acquire i hi hpc hav hf =>
    refine ⟨by simpa using hlen, ?_, ?_, ?_⟩
    · have hb := countP_set_balance holdsSlot s.pcs i 1 hi
      rw [hpc] at hb
      simp [holdsSlot] at hb
      show s.avail - 1 + (s.pcs.set i 1).countP holdsSlot = bound
      omega
    · intro p hp
      rcases List.mem_or_eq_of_mem_set hp with hmem | rfl
      · exact hle p hmem
      · omega
    · exact fifo_preserved (by omega) hi hfifo hf
  | fetchStart i hi hpc =>
    refine ⟨by simpa using hlen, ?_, ?_, ?_⟩
    · have hb := countP_set_balance holdsSlot s.pcs i 2 hi
      rw [hpc] at hb
      simp [holdsSlot] at hb
      show s.avail + (s.pcs.set i 2).countP holdsSlot = bound
      omega
    · intro p hp
      rcases List.mem_or_eq_of_mem_set hp with hmem | rfl
      · exact hle p hmem
      · omega
    · refine fifo_preserved (by omega) hi hfifo (fun j hj => ?_)
      exact hfifo j i hj (by rw [hpc])
  | fetchEnd i hi hpc =>
    refine ⟨by simpa using hlen, ?_, ?_, ?_⟩
    · have hb := countP_set_balance holdsSlot s.pcs i 3 hi
      rw [hpc] at hb
      simp [holdsSlot] at hb
      show s.avail + (s.pcs.set i 3).countP holdsSlot = bound
      omega
    · intro p hp
      rcases List.mem_or_eq_of_mem_set hp with hmem | rfl
      · exact hle p hmem
      · omega
    · refine fifo_preserved (by omega) hi hfifo (fun j hj => ?_)
      exact hfifo j i hj (by rw [hpc]; omega)
  | release i hi hpc =>
    refine ⟨by simpa using hlen, ?_, ?_, ?_⟩
    · have hb := countP_set_balance holdsSlot s.pcs i 4 hi
      rw [hpc] at hb
      simp [holdsSlot] at hb
      show s.avail + 1 + (s.pcs.set i 4).countP holdsSlot = bound
      omega
    · intro p hp
      rcases List.mem_or_eq_of_mem_set hp with hmem | rfl
      · exact hle p hmem
      · omega
    · refine fifo_preserved (by omega) hi hfifo (fun j hj => ?_)
      exact hfifo j i hj (by rw [hpc]; omega)

theorem poolInv_reachable {n bound : Nat} {s : PoolState} (h : PoolReachable n bound s) :
    PoolInv n bound s := by
  induction h with
  | refl =>
    refine ⟨by simp [initPool], ?_, ?_, ?_⟩
    · have : (List.replicate n 0).countP holdsSlot = 0 := by
        rw [List.countP_eq_zero]
        intro a ha
        rw [List.eq_of_mem_replicate ha]
        simp [holdsSlot]
      simp [initPool, this]
    · intro p hp
      rw [List.eq_of_mem_replicate hp]
      omega
    · intro i j hij hj
      rw [show (initPool n bound).pcs = List.replicate n 0 from rfl,
        getD_replicate_zero] at hj
      omega
  | tail hrt hstep ih => exact poolInv_step hstep ih

/-! ## Claim theorems -/

/-- C7: for every input text, `extract_urls` returns exactly the url-shaped
substrings (scheme + non-whitespace run, found by `findUrls`) that classify
to a known platform, each paired with its detected platform, in order of
occurrence; substrings that do not classify are silently dropped. -/
theorem c7_extract_urls_exactly_classified (text : String) :
    extract_urls text
      = (findUrls text).filterMap (fun u => (detect_platform u).map (fun p => (u, p))) ∧
    (∀ pr ∈ extract_urls text, detect_platform pr.1 = some pr.2) ∧
    List.Sublist ((extract_urls text).map (fun pr => pr.1)) (findUrls text) := by
  have hloop : ∀ l : List String,
      extractLoop l = l.filterMap (fun u => (detect_platform u).map (fun p => (u, p))) := by
    intro l
    induction l with
    | nil => rfl
    | cons u rest ih =>
      simp only [extractLoop, List.filterMap_cons]
      cases h : detect_platform u with
      | none => simpa [h] using ih
      | some p => simpa [h] using ih
  refine ⟨hloop (findUrls text), ?_, ?_⟩
  · intro pr hpr
    rw [extract_urls, hloop (findUrls text)] at hpr
    obtain ⟨u, hu, hmap⟩ := List.mem_filterMap.mp hpr
    cases h : detect_platform u with
    | none => rw [h] at hmap; simp at hmap
    | some p =>
      rw [h] at hmap
      have hpr2 : pr = (u, p) := by simpa [eq_comm] using hmap
      rw [hpr2]
      exact h
  · rw [extract_urls, hloop (findUrls text)]
    have : ∀ l : List String,
        List.Sublist ((l.filterMap (fun u => (detect_platform u).map (fun p => (u, p)))).map
          (fun pr => pr.1)) l := by
      intro l
      induction l with
      | nil => simp
      | cons u rest ih =>
        simp only [List.filterMap_cons]
        cases h : detect_platform u with
        | none => exact ih.cons u
        | some p => simpa using ih.cons₂ u
    exact this (findUrls text)

/-- C7 witness: a concrete text with one classified and one dropped url. -/
theorem c7_witness :
    extract_urls ("go https://youtu.be/abc or https://nope.io/x now")
      = [("https://youtu.be/abc", "youtube")] ∧
    detect_platform ("https://youtu.be/abc") = some ("youtube") :=
  ⟨by decide,
   (c7_extract_urls_exactly_classified ("go https://youtu.be/abc or https://nope.io/x now")).2.1
     (("https://youtu.be/abc", "youtube")) (by decide)⟩

/-- C4: two-tier lookup — exact platform id first, then the generic
fallback, else none; with a tiktok provider the alias douyin resolves to
the very same instance, and youtube without a generic fallback resolves to
none. -/
theorem c4_lookup_two_tier :
    (∀ (reg : List (String × Nat)) (p : String) (f : Nat),
        dictGet reg p = some f → lookupService reg (some p) = some f) ∧
    (∀ (reg : List (String × Nat)) (p : String),
        dictGet reg p = none → lookupService reg (some p) = dictGet reg ("generic")) ∧
    lookupService (discover_services (["tiktok"])) (some ("douyin")) = some 0 ∧
    dictGet (discover_services (["tiktok"])) ("tiktok") = some 0 ∧
    lookupService (discover_services (["tiktok"])) (some ("youtube")) = none := by
  refine ⟨?_, ?_, by decide, by decide, by decide⟩
  · intro reg p f h
    simp [lookupService, h]
  · intro reg p h
    simp [lookupService, h]

/-- C4 witness: the two quantified tiers applied at concrete registries. -/
theorem c4_witness :
    lookupService ([("a", 3)]) (some ("a")) = some 3 ∧
    lookupService ([("a", 3)]) (some ("b")) = dictGet ([("a", 3)]) ("generic") :=
  ⟨c4_lookup_two_tier.1 ([("a", 3)]) ("a") 3 (by decide),
   c4_lookup_two_tier.2.1 ([("a", 3)]) ("b") (by decide)⟩

/-- C10: updating the ledger with a record id that matches no row leaves
the ledger unchanged — no row created, none modified, no error raised. -/
theorem c10_update_missing_record_noop (db : List DownloadRecord) (record_id : Nat)
    (status : String) (file_path : Option String) (file_size : Option Nat)
    (error_message : Option String) (now : Nat)
    (h : ∀ r ∈ db, r.id ≠ record_id) :
    update_download_record db record_id status file_path file_size error_message now = db := by
  induction db with
  | nil => rfl
  | cons r rest ih =>
    simp only [update_download_record]
    rw [if_neg (h r (by simp)), ih (fun r2 hr2 => h r2 (by simp [hr2]))]

/-- C10 witness: a concrete one-row ledger and a non-matching id. -/
theorem c10_witness :
    update_download_record ([⟨1, 7, "u", "tiktok", "pending", none, none, 0, none, none⟩]) 2
        ("failed") none none (some ("boom")) 5
      = [⟨1, 7, "u", "tiktok", "pending", none, none, 0, none, none⟩] :=
  c10_update_missing_record_noop _ 2 ("failed") none none (some ("boom")) 5 (by decide)

/-- C9: a successful fetch of exactly one produced file that no longer
exists at delivery time sends nothing and notifies nobody (not even a
transport call is attempted), while the zero-file case notifies the
requester that nothing was produced. -/
theorem c9_single_missing_file_silent (oracle : Nat → Bool) (k : Nat) (fs : FsState)
    (chat : Int) (md : List (String × String)) (tmp f : String)
    (hmiss : fileExists fs f = false) (hok : oracle k = true) :
    send_files_to_user oracle k fs chat ([f]) md tmp = ([], k, none) ∧
    send_files_to_user oracle k fs chat ([]) md tmp
      = ([Ev.msgSent chat ("❌ No files were downloaded.")], k + 1, none) := by
  constructor
  · simp [send_files_to_user, sendFilesBody, hmiss]
  · simp [send_files_to_user, sendFilesBody, hok]

/-- C9 witness: a concrete absent single file versus the empty list. -/
theorem c9_witness :
    send_files_to_user (fun _ => true) 0 ([("other.bin", 3)]) 5 (["gone.mp4"]) [] ("tmp.zip")
      = ([], 0, none) ∧
    send_files_to_user (fun _ => true) 0 ([("other.bin", 3)]) 5 ([]) [] ("tmp.zip")
      = ([Ev.msgSent 5 ("❌ No files were downloaded.")], 1, none) :=
  c9_single_missing_file_silent (fun _ => true) 0 ([("other.bin", 3)]) 5 [] ("tmp.zip")
    ("gone.mp4") (by decide) (by decide)

/-- C8: the cleanup timer fires no earlier than its scheduling instant plus
`delay_hours * 3600` seconds; firing on an absent task directory is a
no-op; firing on a present one removes the directory and everything
beneath it and touches nothing else. -/
theorem c8_cleanup_deadline_idempotent :
    (∀ t0 delay_hours t, sleepElapsed t0 (cleanupDelaySeconds delay_hours) t →
        t0 + delay_hours * 3600 ≤ t) ∧
    (∀ (fs : List String) (root : String) (uid rid : Nat),
        taskDirPath root uid rid ∉ fs → cleanup_user_files fs root uid rid = fs) ∧
    (∀ (fs : List String) (root : String) (uid rid : Nat) (p : String),
        taskDirPath root uid rid ∈ fs → underDir (taskDirPath root uid rid) p = true →
        p ∉ cleanup_user_files fs root uid rid) ∧
    (∀ (fs : List String) (root : String) (uid rid : Nat) (p : String),
        p ∈ cleanup_user_files fs root uid rid → p ∈ fs) := by
  refine ⟨fun t0 dh t h => h, ?_, ?_, ?_⟩
  · intro fs root uid rid h
    simp [cleanup_user_files, h]
  · intro fs root uid rid p hmem hunder hin
    rw [cleanup_user_files] at hin
    simp only [hmem, if_true, List.mem_filter] at hin
    rw [hunder] at hin
    simp at hin
  · intro fs root uid rid p h
    rw [cleanup_user_files] at h
    split at h
    · exact (List.mem_filter.mp h).1
    · exact h

/-- C8 witness: concrete timer arithmetic, a concrete absent-directory
no-op, and a concrete removal. -/
theorem c8_witness :
    (0 : Nat) + 1 * 3600 ≤ 3600 ∧
    cleanup_user_files (["/d/9/9"]) ("/d") 1 2 = ["/d/9/9"] ∧
    ("/d/1/2/f.mp4" : String) ∉ cleanup_user_files (["/d/1/2", "/d/1/2/f.mp4"]) ("/d") 1 2 :=
  ⟨c8_cleanup_deadline_idempotent.1 0 1 3600 (by norm_num [sleepElapsed, cleanupDelaySeconds]),
   c8_cleanup_deadline_idempotent.2.1 (["/d/9/9"]) ("/d") 1 2 (by decide),
   c8_cleanup_deadline_idempotent.2.2.1 (["/d/1/2", "/d/1/2/f.mp4"]) ("/d") 1 2
     ("/d/1/2/f.mp4") (by decide) (by decide)⟩

theorem taskDirPath_ne_empty (root : String) (uid rid : Nat) :
    taskDirPath root uid rid ≠ "" := by
  unfold taskDirPath
  intro h
  have hlen := congrArg String.length h
  simp only [String.length_append] at hlen
  have h1 : String.length ("/") = 1 := rfl
  have h0 : String.length ("") = 0 := rfl
  omega

theorem applyRecordUpdate_completed (r : DownloadRecord) (dir : String) (sz now : Nat)
    (hdir : dir ≠ "") (hsz : sz ≠ 0) :
    applyRecordUpdate r ("completed") (some dir) (some sz) none now
      = { r with status := "completed", file_path := some dir,
                 file_size := some sz, completed_at := some now } := by
  have h1 : pyTruthyStr (some dir) = true := by simpa [pyTruthyStr] using hdir
  have h2 : pyTruthyNat (some sz) = true := by simpa [pyTruthyNat] using hsz
  simp [applyRecordUpdate, h1, h2, pyTruthyStr, hdir]

theorem applyRecordUpdate_id (r : DownloadRecord) (status : String)
    (file_path : Option String) (file_size : Option Nat) (error_message : Option String)
    (now : Nat) :
    (applyRecordUpdate r status file_path file_size error_message now).id = r.id := by
  unfold applyRecordUpdate
  split_ifs <;> rfl

/-- C5 counterexample: a fetch success whose produced file exists with size
0 gives an aggregate size of 0, and the ledger update then leaves
`file_size` untouched (`None`) instead of recording the sum, because the
code guards the column write with the truthiness test `if file_size:`. -/
theorem c5_counterexample :
    totalSize ([("a.bin", 0)]) (["a.bin"]) = 0 ∧
    update_download_record ([⟨1, 7, "u", "tiktok", "pending", none, none, 0, none, none⟩]) 1
        ("completed") (some ("/d/7/1")) (some (totalSize ([("a.bin", 0)]) (["a.bin"]))) none 5
      = [⟨1, 7, "u", "tiktok", "completed", some ("/d/7/1"), none, 0, some 5, none⟩] := by
  constructor
  · rfl
  · rfl

/-- C5 (amended): on fetch success the matched ledger row is set to status
completed with the task's output directory and the completion timestamp,
and — provided the aggregate size of the still-existing produced files is
nonzero — `file_size` is set to that aggregate; a zero aggregate leaves
`file_size` unchanged (see the counterexample). -/
theorem c5_completed_update (fs : FsState) (files : List String) (db : List DownloadRecord)
    (rid : Nat) (root : String) (uid now : Nat) (r : DownloadRecord)
    (hfind : findRecord db rid = some r)
    (hsz : totalSize fs files ≠ 0) :
    findRecord (update_download_record db rid ("completed")
        (some (taskDirPath root uid rid)) (some (totalSize fs files)) none now) rid
      = some { r with status := "completed",
                      file_path := some (taskDirPath root uid rid),
                      file_size := some (totalSize fs files),
                      completed_at := some now } := by
  induction db with
  | nil => simp [findRecord] at hfind
  | cons r0 rest ih =>
    by_cases hid : r0.id = rid
    · have hr0 : r = r0 := by
        rw [findRecord, List.find?_cons_of_pos _ (by simpa using hid)] at hfind
        exact (Option.some.injEq r0 r).mp hfind |>.symm
      rw [update_download_record, if_pos hid, findRecord,
        List.find?_cons_of_pos _ (by simpa using (applyRecordUpdate_id r0 _ _ _ _ _).trans hid)]
      rw [hr0, applyRecordUpdate_completed r0 _ _ now (taskDirPath_ne_empty root uid rid) hsz]
    · rw [findRecord, List.find?_cons_of_neg _ (by simpa using hid)] at hfind
      rw [update_download_record, if_neg hid, findRecord,
        List.find?_cons_of_neg _ (by simpa using hid)]
      exact ih hfind

/-- C5 witness: a ledger row updated after a fetch producing files of 10,
20 and 30 bytes records the aggregate size 60. -/
theorem c5_witness :
    findRecord (update_download_record
        ([⟨1, 7, "u", "tiktok", "pending", none, none, 0, none, none⟩]) 1 ("completed")
        (some (taskDirPath ("/d") 7 1))
        (some (totalSize ([("a", 10), ("b", 20), ("c", 30)]) (["a", "b", "c"]))) none 5) 1
      = some ⟨1, 7, "u", "tiktok", "completed", some (taskDirPath ("/d") 7 1),
          some 60, 0, some 5, none⟩ := by
  have h := c5_completed_update ([("a", 10), ("b", 20), ("c", 30)]) (["a", "b", "c"])
    ([⟨1, 7, "u", "tiktok", "pending", none, none, 0, none, none⟩]) 1 ("/d") 7 5
    (⟨1, 7, "u", "tiktok", "pending", none, none, 0, none, none⟩) (by decide) (by decide)
  have hsum : totalSize ([("a", 10), ("b", 20), ("c", 30)]) (["a", "b", "c"]) = 60 := by decide
  rw [h, hsum]

/-- C2 counterexample: two produced files with the same base name are both
written to the archive under that one name — `zipfile` keeps duplicate
entries, nothing de-duplicates them, so two top-level entries share a
name. -/
theorem c2_counterexample :
    archiveEntries ([("a/x.mp4", 10), ("b/x.mp4", 20)]) (["a/x.mp4", "b/x.mp4"])
      = ["x.mp4", "x.mp4"] ∧
    ¬ (archiveEntries ([("a/x.mp4", 10), ("b/x.mp4", 20)]) (["a/x.mp4", "b/x.mp4"])).Nodup ∧
    (send_files_to_user (fun _ => true) 0 ([("a/x.mp4", 10), ("b/x.mp4", 20)]) 5
        (["a/x.mp4", "b/x.mp4"]) [] ("t.zip")).1
      = [Ev.zipWritten ("t.zip") (["x.mp4", "x.mp4"]),
         Ev.docSent 5 ("t.zip") (zipCaption [] 2),
         Ev.unlinked ("t.zip")] := by
  refine ⟨by decide, by decide, by decide⟩

/-- C2 (amended): a successful fetch of N > 1 files that all still exist
delivers exactly one archive with exactly N top-level entries, one per
produced file in order, each named by the file's base name with all
directory structure discarded; colliding base names are NOT de-duplicated —
the duplicates stay as equal entry names. -/
theorem c2_archive_flat_entries (oracle : Nat → Bool) (k : Nat) (fs : FsState)
    (chat : Int) (files : List String) (md : List (String × String)) (tmp : String)
    (hlen : 1 < files.length) (hex : ∀ f ∈ files, fileExists fs f = true)
    (hok : oracle k = true) :
    send_files_to_user oracle k fs chat files md tmp
      = ([Ev.zipWritten tmp (files.map pathName),
          Ev.docSent chat tmp (zipCaption md files.length),
          Ev.unlinked tmp], k + 1, none) ∧
    (files.map pathName).length = files.length := by
  obtain ⟨f, rest, rfl⟩ : ∃ f rest, files = f :: rest := by
    cases files with
    | nil => simp at hlen
    | cons f rest => exact ⟨f, rest, rfl⟩
  have hfilter : (f :: rest).filter (fileExists fs) = f :: rest :=
    List.filter_eq_self.mpr (fun a ha => hex a ha)
  constructor
  · simp only [send_files_to_user, sendFilesBody, archiveEntries, hfilter]
    rw [if_pos hlen, if_pos hok]
  · simp

/-- C2 witness: a concrete two-file archive delivery. -/
theorem c2_witness :
    send_files_to_user (fun _ => true) 0 ([("a/x.mp4", 10), ("b/y.mp4", 20)]) 5
        (["a/x.mp4", "b/y.mp4"]) [] ("t.zip")
      = ([Ev.zipWritten ("t.zip") ((["a/x.mp4", "b/y.mp4"]).map pathName),
          Ev.docSent 5 ("t.zip") (zipCaption [] 2),
          Ev.unlinked ("t.zip")], 1, none) ∧
    ((["a/x.mp4", "b/y.mp4"]).map pathName).length = (["a/x.mp4", "b/y.mp4"]).length :=
  c2_archive_flat_entries (fun _ => true) 0 ([("a/x.mp4", 10), ("b/y.mp4", 20)]) 5
    (["a/x.mp4", "b/y.mp4"]) [] ("t.zip") (by decide) (by decide) (by decide)

/-- C6 counterexample: when sending the archive document raises, the code
never reaches the `unlink`; the temporary archive written to `t.zip`
remains — the removal is not on every exit path. -/
theorem c6_counterexample :
    (send_files_to_user (fun _ => false) 0 ([("a/x.mp4", 1), ("b/y.mp4", 2)]) 5
        (["a/x.mp4", "b/y.mp4"]) [] ("t.zip")).1
      = [Ev.zipWritten ("t.zip") (["x.mp4", "y.mp4"])] ∧
    Ev.unlinked ("t.zip") ∉
      (send_files_to_user (fun _ => false) 0 ([("a/x.mp4", 1), ("b/y.mp4", 2)]) 5
        (["a/x.mp4", "b/y.mp4"]) [] ("t.zip")).1 := by
  refine ⟨by decide, by decide⟩

/-- C6 (amended): in a multi-file delivery the temporary archive is removed
exactly when sending it succeeds; on a send failure the removal is skipped
and the archive file is left behind. -/
theorem c6_unlink_iff_send_ok (oracle : Nat → Bool) (k : Nat) (fs : FsState)
    (chat : Int) (files : List String) (md : List (String × String)) (tmp : String)
    (hlen : 1 < files.length) :
    (Ev.unlinked tmp ∈ (send_files_to_user oracle k fs chat files md tmp).1)
      ↔ oracle k = true := by
  obtain ⟨f, rest, rfl⟩ : ∃ f rest, files = f :: rest := by
    cases files with
    | nil => simp at hlen
    | cons f rest => exact ⟨f, rest, rfl⟩
  cases hok : oracle k with
  | true =>
    simp only [send_files_to_user, sendFilesBody]
    rw [if_pos hlen, if_pos hok]
    simp
  | false =>
    simp only [send_files_to_user, sendFilesBody]
    rw [if_pos hlen, if_neg (by simp [hok])]
    cases hok2 : oracle (k + 1) <;> simp [hok2]

/-- C6 witness: with a succeeding transport the archive is unlinked. -/
theorem c6_witness :
    Ev.unlinked ("t.zip") ∈
      (send_files_to_user (fun _ => true) 0 ([("a/x.mp4", 1), ("b/y.mp4", 2)]) 5
        (["a/x.mp4", "b/y.mp4"]) [] ("t.zip")).1 :=
  (c6_unlink_iff_send_ok (fun _ => true) 0 ([("a/x.mp4", 1), ("b/y.mp4", 2)]) 5
    (["a/x.mp4", "b/y.mp4"]) [] ("t.zip") (by decide)).mpr (by decide)

/-- C3 counterexample: fetch succeeds and the ledger is set to completed,
but when the delivery send fails AND the in-delivery error notification
also fails, the exception escapes `send_files_to_user`, the outer handler
of `process_download_task` runs, and the task is re-marked failed — the
Completed status does not survive every delivery failure. -/
theorem c3_counterexample :
    (process_download_task (fun _ => false) 0
        ([("/d/7/1/a.mp4", 10), ("/d/7/1/b.mp4", 20)])
        ([⟨1, 7, "https://tiktok.com/@u/video/1", "tiktok", "pending", none, none, 0, none, none⟩])
        ([("tiktok", 0)]) 9 7 1 ("https://tiktok.com/@u/video/1") ("tiktok") ("/d") ("t.zip")
        (⟨true, ["/d/7/1/a.mp4", "/d/7/1/b.mp4"], [], none⟩) 5).1
      = [⟨1, 7, "https://tiktok.com/@u/video/1", "tiktok", "failed", some ("/d/7/1"),
          some 30, 0, some 5, some ("send_message failed")⟩] := by
  decide

/-- C3 (amended): after a successful fetch the ledger row is set to
completed, and it stays completed whenever delivery does not raise out of
`send_files_to_user` — in particular when delivery itself failed but the
in-delivery error notification succeeded, the failure is logged only; only
when that notification also raises is the task re-marked failed. -/
theorem c3_completed_persists (oracle : Nat → Bool) (k : Nat) (fs : FsState)
    (db : List DownloadRecord) (services : List (String × Nat)) (chat : Int)
    (uid rid : Nat) (url platform root tmp : String) (result : FetchResult) (now : Nat)
    (sid : Nat) (evs : List Ev) (k1 : Nat)
    (hsvc : get_service_for_url services url = some sid)
    (hsucc : result.success = true)
    (hsend : send_files_to_user oracle k fs chat result.files result.metadata tmp
      = (evs, k1, none)) :
    (process_download_task oracle k fs db services chat uid rid url platform root tmp
        result now).1
      = update_download_record db rid ("completed") (some (taskDirPath root uid rid))
          (some (totalSize fs result.files)) none now := by
  simp only [process_download_task, hsvc, hsucc, if_true, hsend]

/-- C3 witness: delivery fails but its error notification succeeds
(transport call 1 is the in-delivery notification), and the row stays
completed. -/
theorem c3_witness :
    (process_download_task (fun j => j != 0) 0
        ([("/d/7/1/a.mp4", 10), ("/d/7/1/b.mp4", 20)])
        ([⟨1, 7, "https://tiktok.com/@u/video/1", "tiktok", "pending", none, none, 0, none, none⟩])
        ([("tiktok", 0)]) 9 7 1 ("https://tiktok.com/@u/video/1") ("tiktok") ("/d") ("t.zip")
        (⟨true, ["/d/7/1/a.mp4", "/d/7/1/b.mp4"], [], none⟩) 5).1
      = update_download_record
          ([⟨1, 7, "https://tiktok.com/@u/video/1", "tiktok", "pending", none, none, 0, none, none⟩])
          1 ("completed") (some (taskDirPath ("/d") 7 1))
          (some (totalSize ([("/d/7/1/a.mp4", 10), ("/d/7/1/b.mp4", 20)])
            (["/d/7/1/a.mp4", "/d/7/1/b.mp4"]))) none 5 :=
  c3_completed_persists (fun j => j != 0) 0
    ([("/d/7/1/a.mp4", 10), ("/d/7/1/b.mp4", 20)])
    ([⟨1, 7, "https://tiktok.com/@u/video/1", "tiktok", "pending", none, none, 0, none, none⟩])
    ([("tiktok", 0)]) 9 7 1 ("https://tiktok.com/@u/video/1") ("tiktok") ("/d") ("t.zip")
    (⟨true, ["/d/7/1/a.mp4", "/d/7/1/b.mp4"], [], none⟩) 5 0
    ([Ev.zipWritten ("t.zip") (["a.mp4", "b.mp4"]),
      Ev.msgSent 9 ("❌ Error sending files: " ++ "send_document failed")]) 2
    (by decide) (by decide) (by decide)

/-- C1: in every reachable worker-pool state the number of tasks whose
`service.download` call is in flight never exceeds the semaphore bound;
and with bound 1 and two tasks submitted back-to-back, whenever the second
task's fetch is in flight the first task has already finished (released its
slot, which happens only after its fetch returned) — the second fetch never
begins before the first returns. -/
theorem c1_concurrent_fetch_bound (n bound : Nat) (s : PoolState)
    (h : PoolReachable n bound s) :
    s.pcs.countP (fun p => p == 2) ≤ bound ∧
    (bound = 1 → s.pcs.getD 1 0 = 2 → s.pcs.getD 0 0 = 4) := by
  obtain ⟨hlen, hcount, hle, hfifo⟩ := poolInv_reachable h
  constructor
  · have hmono : s.pcs.countP (fun p => p == 2) ≤ s.pcs.countP holdsSlot := by
      apply countP_le_of_imp
      intro a ha
      have ha2 : a = 2 := by simpa using ha
      simp [holdsSlot, ha2]
    omega
  · intro hb h2
    obtain ⟨p0, p1, rest, hpcs⟩ : ∃ p0 p1 rest, s.pcs = p0 :: p1 :: rest := by
      cases hc : s.pcs with
      | nil => rw [hc] at h2; simp [List.getD] at h2
      | cons p0 tl =>
        cases tl with
        | nil => rw [hc] at h2; simp [List.getD] at h2
        | cons p1 rest => exact ⟨p0, p1, rest, rfl⟩
    rw [hpcs] at hcount hle hfifo h2 ⊢
    simp only [List.getD_cons_succ, List.getD_cons_zero] at h2 ⊢
    have hf : 1 ≤ p0 := by
      have hft := hfifo 0 1 (by omega)
      simp only [List.getD_cons_succ, List.getD_cons_zero] at hft
      exact hft (by omega)
    have hp0le : p0 ≤ 4 := hle p0 (by simp)
    by_cases hh : holdsSlot p0 = true
    · have hh1 : holdsSlot p1 = true := by simp [holdsSlot, h2]
      have hcount2 : 2 ≤ (p0 :: p1 :: rest).countP holdsSlot := by
        simp [List.countP_cons, hh, hh1]
      omega
    · simp [holdsSlot] at hh
      omega

/-- C1 witness: with bound 1 and two tasks the state reached by admitting
task 0 and starting its fetch satisfies the bound, and the conditional
ordering property holds there. -/
theorem c1_witness :
    (PoolState.mk 0 ([2, 0])).pcs.countP (fun p => p == 2) ≤ 1 ∧
    ((1 : Nat) = 1 → (PoolState.mk 0 ([2, 0])).pcs.getD 1 0 = 2 →
      (PoolState.mk 0 ([2, 0])).pcs.getD 0 0 = 4) := by
  have hstep1 : PoolStep (initPool 2 1) (PoolState.mk 0 ([1, 0])) :=
    PoolStep.acquire (initPool 2 1) 0 (by decide) (by decide) (by decide)
      (fun j hj => absurd hj (by omega))
  have hstep2 : PoolStep (PoolState.mk 0 ([1, 0])) (PoolState.mk 0 ([2, 0])) :=
    PoolStep.fetchStart (PoolState.mk 0 ([1, 0])) 0 (by decide) (by decide)
  exact c1_concurrent_fetch_bound 2 1 (PoolState.mk 0 ([2, 0]))
    (Relation.ReflTransGen.tail (Relation.ReflTransGen.tail Relation.ReflTransGen.refl hstep1)
      hstep2)
